import Mathlib

/-!
# Verification of the Electrum escrow plugin core

A shallow embedding of the escrow-trading engine found under
`electrum/plugins/escrow/` (files `escrow_worker.py`, `agent.py`, `client.py`,
`nostr_worker.py`, `constants.py`), together with proofs and refutations of the
specification's claims about it.

Python `dict`s are modelled as insertion-ordered association lists,
machine-independent Python integers as `Nat`/`Int`, and fallible code as
`Except`.  External collaborators that are not part of the repository
(the wallet, `electrum_ecc`, `electrum.crypto.sha256`, address validation)
are modelled from the spec where needed; each such definition carries a
doc comment starting with `Modelled from the spec:`.
-/

namespace Escrow

/-! ## Decimal rendering of integers (Python `str(int)`)

The source builds hash preimages and key-derivation preimages with Python's
`str()` applied to integers.  We embed that as an executable decimal
renderer.  A fuel-indexed helper keeps the definition structurally
recursive so that it evaluates inside the kernel. -/

/-- Little-endian decimal digits of `n`; `fuel ≥ n` suffices for correctness. -/
def decDigitsFuel : Nat → Nat → List Nat
  | 0, n => [n]
  | fuel + 1, n => if n < 10 then [n] else n % 10 :: decDigitsFuel fuel (n / 10)

/-- Little-endian decimal digits of `n`. -/
def decDigits (n : Nat) : List Nat := decDigitsFuel n n

/-- Value of a little-endian digit list. -/
def digitsVal : List Nat → Nat
  | [] => 0
  | d :: ds => d + 10 * digitsVal ds

theorem digitsVal_decDigitsFuel (fuel : Nat) : ∀ n, digitsVal (decDigitsFuel fuel n) = n := by
  induction fuel with
  | zero => intro n; simp [decDigitsFuel, digitsVal]
  | succ f ih =>
    intro n
    by_cases h : n < 10
    · simp [decDigitsFuel, h, digitsVal]
    · simp only [decDigitsFuel, if_neg h, digitsVal, ih]
      omega

theorem digitsVal_decDigits (n : Nat) : digitsVal (decDigits n) = n :=
  digitsVal_decDigitsFuel n n

theorem decDigits_injective : Function.Injective decDigits := by
  intro a b h
  have := congrArg digitsVal h
  simpa [digitsVal_decDigits] using this

theorem decDigitsFuel_lt_ten (fuel : Nat) :
    ∀ n, n ≤ fuel → ∀ d ∈ decDigitsFuel fuel n, d < 10 := by
  induction fuel with
  | zero =>
    intro n hn d hd
    interval_cases n
    simp [decDigitsFuel] at hd
    omega
  | succ f ih =>
    intro n hn d hd
    by_cases h : n < 10
    · simp [decDigitsFuel, h] at hd
      omega
    · simp only [decDigitsFuel, if_neg h, List.mem_cons] at hd
      rcases hd with hd | hd
      · omega
      · exact ih (n / 10) (by omega) d hd

theorem decDigits_lt_ten (n : Nat) : ∀ d ∈ decDigits n, d < 10 :=
  decDigitsFuel_lt_ten n n (Nat.le_refl n)

/-- Decimal string of a natural number: Python `str(n)` for `n ≥ 0`. -/
def natStr (n : Nat) : String := ⟨(decDigits n).reverse.map Nat.digitChar⟩

/-- Decimal string of an integer: Python `str(n)`. -/
def intStr : Int → String
  | .ofNat n => natStr n
  | .negSucc n => "-" ++ natStr (n + 1)

example : natStr 0 = "0" := by decide
example : natStr 100000 = "100000" := by decide
example : intStr (-1) = "-1" := by decide

theorem digitChar_inj_lt_ten :
    ∀ d1 < 10, ∀ d2 < 10, Nat.digitChar d1 = Nat.digitChar d2 → d1 = d2 := by decide

theorem map_digitChar_inj : ∀ l1 l2 : List Nat, (∀ d ∈ l1, d < 10) → (∀ d ∈ l2, d < 10) →
    l1.map Nat.digitChar = l2.map Nat.digitChar → l1 = l2 := by
  intro l1
  induction l1 with
  | nil => intro l2 _ _ h; cases l2 <;> simp_all
  | cons a l ih =>
    intro l2 h1 h2 h
    cases l2 with
    | nil => simp at h
    | cons b l2' =>
      simp only [List.map_cons, List.cons.injEq] at h
      have hab : a = b :=
        digitChar_inj_lt_ten a (h1 a (by simp)) b (h2 b (by simp)) h.1
      have : l = l2' := ih l2' (fun d hd => h1 d (by simp [hd])) (fun d hd => h2 d (by simp [hd])) h.2
      simp [hab, this]

theorem natStr_injective : Function.Injective natStr := by
  intro a b h
  have hdata : ((decDigits a).reverse.map Nat.digitChar) = ((decDigits b).reverse.map Nat.digitChar) := by
    have := congrArg String.data h
    simpa [natStr] using this
  have hrev : (decDigits a).reverse = (decDigits b).reverse :=
    map_digitChar_inj _ _ (fun d hd => decDigits_lt_ten a d (List.mem_reverse.mp hd))
      (fun d hd => decDigits_lt_ten b d (List.mem_reverse.mp hd)) hdata
  exact decDigits_injective (List.reverse_inj.mp hrev)

theorem natStr_ne_neg_one (n : Nat) : natStr n ≠ "-1" := by
  intro h
  have hdata : ((decDigits n).reverse.map Nat.digitChar) = ['-', '1'] := by
    have := congrArg String.data h
    simpa [natStr] using this
  have hmem : '-' ∈ (decDigits n).reverse.map Nat.digitChar := by
    rw [hdata]; simp
  obtain ⟨d, hd, hdc⟩ := List.mem_map.mp hmem
  have hlt : d < 10 := decDigits_lt_ten n d (List.mem_reverse.mp hd)
  have : ∀ d < 10, Nat.digitChar d ≠ '-' := by decide
  exact this d hlt hdc

/-! ## String concatenation facts -/

theorem string_data_inj {a b : String} (h : a.data = b.data) : a = b := by
  cases a; cases b; exact congrArg String.mk h

theorem string_append_data (a b : String) : (a ++ b).data = a.data ++ b.data :=
  String.data_append a b

/-! ## Idealized cryptography

The hashing and signing used by `TradeContract` live outside the repository
(`electrum.crypto.sha256`, `electrum_ecc` Schnorr).  They are modelled from
the spec as an ideal injective hash and an ideal signature scheme that binds
a signature to the exact signed digest and signer key. -/

/-- Modelled from the spec: a 32-byte sha256 digest (`electrum.crypto.sha256`
is not under `src/`).  Idealized as collision-free, i.e. the digest is
injective in its preimage. -/
structure Digest where
  preimage : String
deriving DecidableEq, Repr

/-- Modelled from the spec: `electrum.crypto.sha256`, idealized as an
injective hash. -/
def sha256 (s : String) : Digest := ⟨s⟩

theorem sha256_injective : Function.Injective sha256 := by
  intro a b h
  simpa [sha256] using h

/-- Modelled from the spec: a secp256k1 private key (`electrum_ecc` is not
under `src/`). -/
structure SchnorrPrivkey where
  sk : Nat
deriving DecidableEq, Repr

/-- Modelled from the spec: the public key derived from a private key. -/
structure SchnorrPubkey where
  keyOf : Nat
deriving DecidableEq, Repr

/-- Modelled from the spec: public-key derivation (`ECPrivkey -> ECPubkey`). -/
def SchnorrPrivkey.public_key (k : SchnorrPrivkey) : SchnorrPubkey := ⟨k.sk⟩

/-- Modelled from the spec: a BIP-340 Schnorr signature over a 32-byte digest
(`electrum_ecc` is not under `src/`).  Idealized as binding the exact signed
digest and the signer's key. -/
structure SchnorrSignature where
  msg32 : Digest
  signer : SchnorrPubkey
deriving DecidableEq, Repr

/-- Modelled from the spec: `ECPrivkey.schnorr_sign(msg32)`. -/
def schnorr_sign (privkey : SchnorrPrivkey) (msg32 : Digest) : SchnorrSignature :=
  ⟨msg32, privkey.public_key⟩

/-- Modelled from the spec: `ECPubkey.schnorr_verify(sig64, msg32)`: a
signature verifies exactly against the digest it signed and the signer's
public key (completeness plus ideal unforgeability). -/
def schnorr_verify (pubkey : SchnorrPubkey) (msg32 : Digest) (sig : SchnorrSignature) : Bool :=
  decide (sig.msg32 = msg32) && decide (sig.signer = pubkey)

/-! ## `TradeContract`  (escrow_worker.py, lines 51-73) -/

/-- `TradeContract` from `escrow_worker.py`: immutable trade terms. -/
structure TradeContract where
  title : String
  contract : String
  trade_amount_sat : Nat
  bond_sat : Nat
deriving DecidableEq, Repr

/-- `TradeContract.contract_hash`: sha256 over the fixed preimage
`"ESCROW" + title + contract + str(trade_amount_sat) + str(bond_sat)`. -/
def TradeContract.contract_hash (c : TradeContract) : Digest :=
  sha256 ("ESCROW" ++ c.title ++ c.contract ++ natStr c.trade_amount_sat ++ natStr c.bond_sat)

/-- `TradeContract.sign`: Schnorr-sign the contract hash. -/
def TradeContract.sign (c : TradeContract) (privkey : SchnorrPrivkey) : SchnorrSignature :=
  schnorr_sign privkey c.contract_hash

/-- `TradeContract.verify`: Schnorr-verify a signature over the contract hash. -/
def TradeContract.verify (c : TradeContract) (sig : SchnorrSignature)
    (pubkey : SchnorrPubkey) : Bool :=
  schnorr_verify pubkey c.contract_hash sig

/-- `c'` is obtained from `c` by mutating exactly one field. -/
def mutatedOneField (c c' : TradeContract) : Prop :=
  (c'.title ≠ c.title ∧ c'.contract = c.contract ∧
      c'.trade_amount_sat = c.trade_amount_sat ∧ c'.bond_sat = c.bond_sat)
  ∨ (c'.title = c.title ∧ c'.contract ≠ c.contract ∧
      c'.trade_amount_sat = c.trade_amount_sat ∧ c'.bond_sat = c.bond_sat)
  ∨ (c'.title = c.title ∧ c'.contract = c.contract ∧
      c'.trade_amount_sat ≠ c.trade_amount_sat ∧ c'.bond_sat = c.bond_sat)
  ∨ (c'.title = c.title ∧ c'.contract = c.contract ∧
      c'.trade_amount_sat = c.trade_amount_sat ∧ c'.bond_sat ≠ c.bond_sat)

instance (c c' : TradeContract) : Decidable (mutatedOneField c c') := by
  unfold mutatedOneField; infer_instance

theorem contract_hash_ne_of_mutatedOneField {c c' : TradeContract}
    (h : mutatedOneField c c') : c'.contract_hash ≠ c.contract_hash := by
  intro heq
  have hpre : ("ESCROW" ++ c'.title ++ c'.contract ++ natStr c'.trade_amount_sat
        ++ natStr c'.bond_sat).data
      = ("ESCROW" ++ c.title ++ c.contract ++ natStr c.trade_amount_sat
        ++ natStr c.bond_sat).data := by
    have := congrArg Digest.preimage heq
    simp only [TradeContract.contract_hash, sha256] at this
    exact congrArg String.data this
  simp only [string_append_data, List.append_assoc] at hpre
  rcases h with ⟨hne, h2, h3, h4⟩ | ⟨h1, hne, h3, h4⟩ | ⟨h1, h2, hne, h4⟩ | ⟨h1, h2, h3, hne⟩
  · rw [h2, h3, h4] at hpre
    have h5 := List.append_cancel_left hpre
    rw [← List.append_assoc, ← List.append_assoc] at h5
    rw [← List.append_assoc, ← List.append_assoc] at h5
    have h6 := List.append_cancel_right h5
    have h7 := List.append_cancel_right h6
    have h8 := List.append_cancel_right h7
    exact hne (string_data_inj h8)
  · rw [h1, h3, h4] at hpre
    have h5 := List.append_cancel_left hpre
    have h6 := List.append_cancel_left h5
    rw [← List.append_assoc, ← List.append_assoc] at h6
    have h7 := List.append_cancel_right h6
    have h8 := List.append_cancel_right h7
    exact hne (string_data_inj h8)
  · rw [h1, h2, h4] at hpre
    have h5 := List.append_cancel_left hpre
    have h6 := List.append_cancel_left h5
    have h7 := List.append_cancel_left h6
    have h8 := List.append_cancel_right h7
    exact hne (natStr_injective (string_data_inj h8))
  · rw [h1, h2, h3] at hpre
    have h5 := List.append_cancel_left hpre
    have h6 := List.append_cancel_left h5
    have h7 := List.append_cancel_left h6
    have h8 := List.append_cancel_left h7
    exact hne (natStr_injective (string_data_inj h8))

/-- C1: for every contract and keypair, `verify(hash(c), sign(hash(c), sk), pk)`
returns true, and mutating any single field of the contract invalidates the
signature. -/
theorem C1_contract_sign_verify (c : TradeContract) (sk : SchnorrPrivkey) :
    c.verify (c.sign sk) sk.public_key = true ∧
    ∀ c' : TradeContract, mutatedOneField c c' →
      c'.verify (c.sign sk) sk.public_key = false := by
  constructor
  · simp [TradeContract.verify, TradeContract.sign, schnorr_verify, schnorr_sign]
  · intro c' hmut
    have hne : c.contract_hash ≠ c'.contract_hash :=
      fun h => contract_hash_ne_of_mutatedOneField hmut h.symm
    simp [TradeContract.verify, TradeContract.sign, schnorr_verify, schnorr_sign, hne]

/-- Witness for C1 at a concrete contract, mutation and key. -/
theorem C1_contract_sign_verify_witness :
    ((⟨"title", "terms", 100000, 3000⟩ : TradeContract).verify
        ((⟨"title", "terms", 100000, 3000⟩ : TradeContract).sign ⟨7⟩)
        (SchnorrPrivkey.public_key ⟨7⟩) = true) ∧
    ((⟨"title", "terms", 100000, 3001⟩ : TradeContract).verify
        ((⟨"title", "terms", 100000, 3000⟩ : TradeContract).sign ⟨7⟩)
        (SchnorrPrivkey.public_key ⟨7⟩) = false) :=
  ⟨(C1_contract_sign_verify ⟨"title", "terms", 100000, 3000⟩ ⟨7⟩).1,
   (C1_contract_sign_verify ⟨"title", "terms", 100000, 3000⟩ ⟨7⟩).2
     ⟨"title", "terms", 100000, 3001⟩ (by decide)⟩

/-! ## Escrow constants  (constants.py) -/

def PROTOCOL_VERSION : Nat := 1

def MIN_TRADE_AMOUNT_SAT : Nat := 1000

def MAX_TITLE_LEN_CHARS : Nat := 100

def MAX_CONTRACT_LEN_CHARS : Nat := 2000

def MAX_AMOUNT_PENDING_TRADES : Nat := 200

def AGENT_STATUS_EVENT_KIND : Nat := 30315

def AGENT_PROFILE_EVENT_KIND : Nat := 0

def AGENT_RELAY_LIST_METADATA_KIND : Nat := 10002

/-- `TradeState` from `constants.py` / `escrow_worker.py` (an `IntEnum`). -/
inductive TradeState
  | WAITING_FOR_TAKER
  | ONGOING
  | MEDIATION
  | FINISHED
  | CANCELLED
deriving DecidableEq, Repr

/-- The `IntEnum` value of a `TradeState`; Python compares states by it. -/
def TradeState.val : TradeState → Nat
  | .WAITING_FOR_TAKER => 0
  | .ONGOING => 1
  | .MEDIATION => 2
  | .FINISHED => 3
  | .CANCELLED => 4

/-- `TradePaymentProtocol` from `constants.py` (an `IntEnum`). -/
inductive TradePaymentProtocol
  | BITCOIN_ONCHAIN
  | BITCOIN_LIGHTNING
deriving DecidableEq, Repr

/-- `TradePaymentProtocol(raw)`: succeeds exactly on the enum values 0 and 1. -/
def TradePaymentProtocol.fromInt : Int → Option TradePaymentProtocol
  | 0 => some .BITCOIN_ONCHAIN
  | 1 => some .BITCOIN_LIGHTNING
  | _ => none

def SUPPORTED_PAYMENT_PROTOCOLS : List TradePaymentProtocol := [.BITCOIN_LIGHTNING]

/-- `TradePaymentDirection` from `constants.py` (an `IntEnum`). -/
inductive TradePaymentDirection
  | SENDING
  | RECEIVING
deriving DecidableEq, Repr

/-- `TradePaymentDirection(raw)`: succeeds exactly on the enum values 0 and 1. -/
def TradePaymentDirection.fromInt : Int → Option TradePaymentDirection
  | 0 => some .SENDING
  | 1 => some .RECEIVING
  | _ => none

/-! ## Agent data model  (agent.py, lines 32-82) -/

/-- `TradeParticipant` from `agent.py`. -/
structure TradeParticipant where
  pubkey : SchnorrPubkey
  funding_request_key : String
  onchain_fallback_address : String
  contract_signature : SchnorrSignature
deriving DecidableEq, Repr

/-- `TradeParticipants` from `agent.py`: the taker is optional and `None`
until a taker joins. -/
structure TradeParticipants where
  maker : TradeParticipant
  taker : Option TradeParticipant := none
deriving DecidableEq, Repr

/-- `AgentEscrowTrade` from `agent.py`. -/
structure AgentEscrowTrade where
  state : TradeState
  trade_participants : TradeParticipants
  contract : TradeContract
  payment_protocol : TradePaymentProtocol
  trade_protocol_version : Nat
  creation_timestamp : Nat
deriving DecidableEq, Repr

/-- The Agent's mutable book-keeping: the unpersisted pending-trade dict, the
persisted trade dict (`storage['trades']`), and the wallet's payment-request
table (key -> amount_sat), through which `create_request`/`delete_request`
effects are tracked.  Python dicts are insertion-ordered association lists. -/
structure AgentState where
  pending : List (String × AgentEscrowTrade)
  trades : List (String × AgentEscrowTrade)
  walletRequests : List (String × Nat)
deriving DecidableEq, Repr

/-- Modelled from the spec: `wallet.delete_request(key)` removes the payment
request for `key` (the wallet is an external collaborator). -/
def deleteRequest (st : AgentState) (key : String) : AgentState :=
  { st with walletRequests := st.walletRequests.filter (fun p => p.1 != key) }

/-- Modelled from the spec: `wallet.create_request(amount_sat, ...)` creates a
payment request under a fresh key and returns that key. -/
def createRequest (st : AgentState) (key : String) (amountSat : Nat) : AgentState :=
  { st with walletRequests := st.walletRequests ++ [(key, amountSat)] }

/-- Python `min(self._pending_trades, key=lambda k: ....creation_timestamp)`:
the first entry in insertion order with minimal creation timestamp. -/
def oldestPending (l : List (String × AgentEscrowTrade)) :
    Option (String × AgentEscrowTrade) :=
  match l with
  | [] => none
  | p :: rest =>
    some (rest.foldl
      (fun best q => if q.2.creation_timestamp < best.2.creation_timestamp then q else best) p)

/-- `EscrowAgent._add_new_trade` (agent.py, lines 156-168): evicts the oldest
pending trade (deleting its maker funding request) if the pending dict is at
capacity, then inserts the trade under the fresh random id `newId`. -/
def addNewTrade (st : AgentState) (newId : String) (trade : AgentEscrowTrade) :
    AgentState × String :=
  let st1 :=
    if MAX_AMOUNT_PENDING_TRADES ≤ st.pending.length then
      match oldestPending st.pending with
      | some kt =>
        let st' := deleteRequest st kt.2.trade_participants.maker.funding_request_key
        { st' with pending := st'.pending.eraseP (fun p => p.1 == kt.1) }
      | none => st
    else st
  ({ st1 with pending := st1.pending ++ [(newId, trade)] }, newId)

theorem oldestPending_spec (l : List (String × AgentEscrowTrade)) (hne : l ≠ []) :
    ∃ kt, oldestPending l = some kt ∧ kt ∈ l ∧
      ∀ q ∈ l, kt.2.creation_timestamp ≤ q.2.creation_timestamp := by
  have core : ∀ (rest : List (String × AgentEscrowTrade)) (p : String × AgentEscrowTrade),
      (rest.foldl (fun best q =>
          if q.2.creation_timestamp < best.2.creation_timestamp then q else best) p = p ∨
        rest.foldl (fun best q =>
          if q.2.creation_timestamp < best.2.creation_timestamp then q else best) p ∈ rest) ∧
      (rest.foldl (fun best q =>
          if q.2.creation_timestamp < best.2.creation_timestamp then q else best)
            p).2.creation_timestamp ≤ p.2.creation_timestamp ∧
      ∀ q ∈ rest, (rest.foldl (fun best q =>
          if q.2.creation_timestamp < best.2.creation_timestamp then q else best)
            p).2.creation_timestamp ≤ q.2.creation_timestamp := by
    intro rest
    induction rest with
    | nil => intro p; simp
    | cons a rest ih =>
      intro p
      simp only [List.foldl_cons]
      by_cases hlt : a.2.creation_timestamp < p.2.creation_timestamp
      · simp only [if_pos hlt]
        obtain ⟨hmem, hle, hall⟩ := ih a
        refine ⟨?_, ?_, ?_⟩
        · rcases hmem with h | h
          · right; simp [h]
          · right; simp [h]
        · omega
        · intro q hq
          rcases List.mem_cons.mp hq with rfl | hq
          · omega
          · exact hall q hq
      · simp only [if_neg hlt]
        obtain ⟨hmem, hle, hall⟩ := ih p
        refine ⟨?_, hle, ?_⟩
        · rcases hmem with h | h
          · left; exact h
          · right; simp [h]
        · intro q hq
          rcases List.mem_cons.mp hq with rfl | hq
          · omega
          · exact hall q hq
  match l, hne with
  | p :: rest, _ =>
    obtain ⟨hmem, hle, hall⟩ := core rest p
    refine ⟨_, rfl, ?_, ?_⟩
    · rcases hmem with h | h
      · simp [h]
      · simp [h]
    · intro q hq
      rcases List.mem_cons.mp hq with rfl | hq
      · exact hle
      · exact hall q hq

/-- C2: the pending-trade dict never grows beyond
`MAX_AMOUNT_PENDING_TRADES`; when it is at capacity, `_add_new_trade` removes
a pending trade of minimal creation timestamp and deletes its maker funding
request before inserting the new trade under the fresh id. -/
theorem C2_add_new_trade_bounded_evicts_oldest (st : AgentState) (newId : String)
    (trade : AgentEscrowTrade) :
    (st.pending.length ≤ MAX_AMOUNT_PENDING_TRADES →
      (addNewTrade st newId trade).1.pending.length ≤ MAX_AMOUNT_PENDING_TRADES) ∧
    (st.pending.length = MAX_AMOUNT_PENDING_TRADES →
      ∃ k t, (k, t) ∈ st.pending ∧
        (∀ q ∈ st.pending, t.creation_timestamp ≤ q.2.creation_timestamp) ∧
        (addNewTrade st newId trade).1.pending
          = st.pending.eraseP (fun p => p.1 == k) ++ [(newId, trade)] ∧
        (addNewTrade st newId trade).1.walletRequests
          = st.walletRequests.filter
              (fun p => p.1 != t.trade_participants.maker.funding_request_key)) := by
  constructor
  · intro hle
    by_cases hcap : MAX_AMOUNT_PENDING_TRADES ≤ st.pending.length
    · have hne : st.pending ≠ [] := by
        intro h
        rw [h] at hcap
        simp [MAX_AMOUNT_PENDING_TRADES] at hcap
      obtain ⟨kt, hold, hmem, _⟩ := oldestPending_spec st.pending hne
      have herase : (st.pending.eraseP (fun p => p.1 == kt.1)).length
          = st.pending.length - 1 :=
        List.length_eraseP_of_mem hmem (by simp)
      simp [addNewTrade, if_pos hcap, hold, deleteRequest]
      have h200 : MAX_AMOUNT_PENDING_TRADES = 200 := rfl
      omega
    · simp only [addNewTrade, if_neg hcap]
      simp only [List.length_append, List.length_singleton]
      omega
  · intro heq
    have hcap : MAX_AMOUNT_PENDING_TRADES ≤ st.pending.length := by omega
    have hne : st.pending ≠ [] := by
      intro h
      rw [h] at heq
      simp [MAX_AMOUNT_PENDING_TRADES] at heq
    obtain ⟨kt, hold, hmem, hall⟩ := oldestPending_spec st.pending hne
    refine ⟨kt.1, kt.2, by simpa using hmem, fun q hq => hall q hq, ?_, ?_⟩
    · simp only [addNewTrade, if_pos hcap, hold, deleteRequest]
    · simp only [addNewTrade, if_pos hcap, hold, deleteRequest]

/-- Concrete pending dict of exactly `MAX_AMOUNT_PENDING_TRADES` trades,
used to witness C2. -/
def c2Trade (i : Nat) : AgentEscrowTrade :=
  { state := .WAITING_FOR_TAKER
    trade_participants :=
      { maker :=
          { pubkey := ⟨i⟩
            funding_request_key := "req" ++ natStr i
            onchain_fallback_address := "addr"
            contract_signature := ⟨⟨"m"⟩, ⟨i⟩⟩ } }
    contract := ⟨"t", "c", 100000, 3000⟩
    payment_protocol := .BITCOIN_LIGHTNING
    trade_protocol_version := 1
    creation_timestamp := 1000 + i }

def c2Pending : List (String × AgentEscrowTrade) :=
  (List.range MAX_AMOUNT_PENDING_TRADES).map (fun i => (natStr i, c2Trade i))

/-- Witness for C2 at a concrete full pending dict. -/
theorem C2_add_new_trade_bounded_evicts_oldest_witness :
    (⟨c2Pending, [], []⟩ : AgentState).pending.length = MAX_AMOUNT_PENDING_TRADES ∧
    ∃ k t, (k, t) ∈ (⟨c2Pending, [], []⟩ : AgentState).pending ∧
      (∀ q ∈ (⟨c2Pending, [], []⟩ : AgentState).pending,
        t.creation_timestamp ≤ q.2.creation_timestamp) ∧
      (addNewTrade ⟨c2Pending, [], []⟩ "fresh" (c2Trade 777)).1.pending
        = (⟨c2Pending, [], []⟩ : AgentState).pending.eraseP (fun p => p.1 == k)
            ++ [("fresh", c2Trade 777)] ∧
      (addNewTrade ⟨c2Pending, [], []⟩ "fresh" (c2Trade 777)).1.walletRequests
        = (⟨c2Pending, [], []⟩ : AgentState).walletRequests.filter
            (fun p => p.1 != t.trade_participants.maker.funding_request_key) :=
  ⟨by simp [c2Pending, MAX_AMOUNT_PENDING_TRADES],
   (C2_add_new_trade_bounded_evicts_oldest ⟨c2Pending, [], []⟩ "fresh" (c2Trade 777)).2
     (by simp [c2Pending, MAX_AMOUNT_PENDING_TRADES])⟩

/-! ## `register_escrow` handling  (agent.py, lines 243-341) -/

/-- The decoded JSON payload of a `register_escrow` request; `none` models a
missing field (`request.get(...)` returning `None`). -/
structure RegisterRequest where
  title : Option String
  contract : Option String
  onchain_fallback_address : Option String
  payment_protocol : Option Int
  payment_network : Option String
  trade_protocol_version : Option Nat
  trade_amount_sat : Option Nat
  bond_amount_sat : Option Nat
  contract_signature : Option SchnorrSignature
  payment_direction : Option Int
deriving DecidableEq, Repr

/-- Result of the `try:` block of `_handle_register_escrow`. -/
structure RegisterSuccess where
  newState : AgentState
  trade_id : String
  invoiceAmountSat : Nat
deriving DecidableEq, Repr

/-- The `try:` block of `EscrowAgent._handle_register_escrow`: each `raise`
becomes an `.error`.  `isAddress` models `electrum.bitcoin.is_address`,
`netName` models `constants.net.NET_NAME`, `freshReqKey` the wallet's fresh
payment-request key, `freshTradeId` the random trade id and `now` the
creation timestamp. -/
def registerEscrowTryBlock (isAddress : String → Bool) (netName : String)
    (req : RegisterRequest) (senderPubkey : SchnorrPubkey)
    (freshReqKey freshTradeId : String) (now : Nat) (st : AgentState) :
    Except String RegisterSuccess :=
  match req.title with
  | none => .error "invalid title"
  | some title =>
  if title.isEmpty || MAX_TITLE_LEN_CHARS < title.length then .error "invalid title" else
  match req.contract with
  | none => .error "invalid contract"
  | some contractText =>
  if contractText.isEmpty || MAX_CONTRACT_LEN_CHARS < contractText.length then
    .error "invalid contract" else
  match req.onchain_fallback_address with
  | none => .error "invalid onchain fallback address"
  | some addr =>
  if addr.isEmpty || !isAddress addr then .error "invalid onchain fallback address" else
  match req.payment_protocol with
  | none => .error "ValueError: TradePaymentProtocol"
  | some ppRaw =>
  match TradePaymentProtocol.fromInt ppRaw with
  | none => .error "ValueError: TradePaymentProtocol"
  | some payment_protocol =>
  if payment_protocol ∉ SUPPORTED_PAYMENT_PROTOCOLS then .error "unsupported payment_protocol" else
  if req.payment_network ≠ some netName then .error "invalid payment_network" else
  match req.trade_protocol_version with
  | none => .error "invalid trade_protocol_version"
  | some trade_protocol =>
  if trade_protocol ≠ PROTOCOL_VERSION then .error "invalid trade_protocol_version" else
  match req.trade_amount_sat with
  | none => .error "no or too small trade_amount_sat"
  | some trade_amount_sat =>
  if trade_amount_sat = 0 || trade_amount_sat < MIN_TRADE_AMOUNT_SAT then
    .error "no or too small trade_amount_sat" else
  match req.bond_amount_sat with
  | none => .error "bond_amount_sat is missing"
  | some bond_amount_sat =>
  let contract : TradeContract := ⟨title, contractText, trade_amount_sat, bond_amount_sat⟩
  match req.contract_signature with
  | none => .error "invalid contract_signature"
  | some signature =>
  if !contract.verify signature senderPubkey then .error "invalid contract_signature" else
  match req.payment_direction with
  | none => .error "ValueError: TradePaymentDirection"
  | some dirRaw =>
  match TradePaymentDirection.fromInt dirRaw with
  | none => .error "ValueError: TradePaymentDirection"
  | some payment_direction =>
  let amount_sat :=
    if payment_direction = TradePaymentDirection.SENDING then trade_amount_sat
    else bond_amount_sat
  let st1 := createRequest st freshReqKey amount_sat
  let maker : TradeParticipant := ⟨senderPubkey, freshReqKey, addr, signature⟩
  let trade : AgentEscrowTrade :=
    ⟨.WAITING_FOR_TAKER, ⟨maker, none⟩, contract, payment_protocol, trade_protocol, now⟩
  let res := addNewTrade st1 freshTradeId trade
  .ok ⟨res.1, res.2, amount_sat⟩

/-- The response the Agent sends back for `register_escrow`: on success the
trade id and the bolt11 funding invoice (represented by its amount), on
failure the structured `{"error": str(e)}` payload. -/
inductive RegisterResponse
  | accepted (trade_id : String) (invoiceAmountSat : Nat)
  | errorResp (msg : String)
deriving DecidableEq, Repr

/-- `EscrowAgent._handle_register_escrow`: the `except` branch answers with a
structured error payload and leaves the agent state untouched. -/
def handleRegisterEscrow (isAddress : String → Bool) (netName : String)
    (req : RegisterRequest) (senderPubkey : SchnorrPubkey)
    (freshReqKey freshTradeId : String) (now : Nat) (st : AgentState) :
    AgentState × RegisterResponse :=
  match registerEscrowTryBlock isAddress netName req senderPubkey freshReqKey
      freshTradeId now st with
  | .ok r => (r.newState, .accepted r.trade_id r.invoiceAmountSat)
  | .error e => (st, .errorResp e)

/-- The validation conditions of `_handle_register_escrow`, collected into one
boolean predicate (the spec's notion of a request "passing validation"). -/
def registrationValid (isAddress : String → Bool) (netName : String)
    (req : RegisterRequest) (senderPubkey : SchnorrPubkey) : Bool :=
  match req.title, req.contract, req.onchain_fallback_address, req.payment_protocol,
      req.payment_network, req.trade_protocol_version, req.trade_amount_sat,
      req.bond_amount_sat, req.contract_signature, req.payment_direction with
  | some title, some contractText, some addr, some ppRaw, some net, some ver,
      some amt, some bond, some sig, some dirRaw =>
    !title.isEmpty && decide (title.length ≤ MAX_TITLE_LEN_CHARS) &&
    !contractText.isEmpty && decide (contractText.length ≤ MAX_CONTRACT_LEN_CHARS) &&
    !addr.isEmpty && isAddress addr &&
    (match TradePaymentProtocol.fromInt ppRaw with
      | some pp => decide (pp ∈ SUPPORTED_PAYMENT_PROTOCOLS)
      | none => false) &&
    (net == netName) && (ver == PROTOCOL_VERSION) &&
    decide (amt ≠ 0) && decide (MIN_TRADE_AMOUNT_SAT ≤ amt) &&
    TradeContract.verify ⟨title, contractText, amt, bond⟩ sig senderPubkey &&
    (TradePaymentDirection.fromInt dirRaw).isSome
  | _, _, _, _, _, _, _, _, _, _ => false

theorem registerEscrowTryBlock_ok_valid (isAddress : String → Bool) (netName : String)
    (req : RegisterRequest) (senderPubkey : SchnorrPubkey)
    (freshReqKey freshTradeId : String) (now : Nat) (st : AgentState)
    (r : RegisterSuccess)
    (h : registerEscrowTryBlock isAddress netName req senderPubkey freshReqKey freshTradeId
        now st = .ok r) :
    registrationValid isAddress netName req senderPubkey = true := by
  unfold registerEscrowTryBlock at h
  simp only [] at h
  repeat' split at h
  all_goals first
    | exact Except.noConfusion h
    | simp_all [registrationValid]

/-- C8: a `register_escrow` request failing any validation step yields a
structured error response and leaves the agent state (pending dict, trade
dict, wallet requests) completely unchanged. -/
theorem C8_register_escrow_invalid_rejected (isAddress : String → Bool) (netName : String)
    (req : RegisterRequest) (senderPubkey : SchnorrPubkey)
    (freshReqKey freshTradeId : String) (now : Nat) (st : AgentState)
    (hinvalid : registrationValid isAddress netName req senderPubkey = false) :
    (handleRegisterEscrow isAddress netName req senderPubkey freshReqKey freshTradeId
        now st).1 = st ∧
    ∃ msg, (handleRegisterEscrow isAddress netName req senderPubkey freshReqKey freshTradeId
        now st).2 = .errorResp msg := by
  cases htry : registerEscrowTryBlock isAddress netName req senderPubkey freshReqKey
      freshTradeId now st with
  | error e =>
    exact ⟨by simp [handleRegisterEscrow, htry], e, by simp [handleRegisterEscrow, htry]⟩
  | ok r =>
    have := registerEscrowTryBlock_ok_valid isAddress netName req senderPubkey freshReqKey
      freshTradeId now st r htry
    rw [hinvalid] at this
    exact absurd this (by simp)

/-- Witness for C8 at a concrete invalid request (bad protocol version). -/
theorem C8_register_escrow_invalid_rejected_witness :
    registrationValid (fun _ => true) "mainnet"
      ⟨some "t", some "c", some "addr", some 1, some "mainnet", some 2, some 100000,
        some 3000, some (TradeContract.sign ⟨"t", "c", 100000, 3000⟩ ⟨7⟩), some 0⟩
      (SchnorrPrivkey.public_key ⟨7⟩) = false ∧
    (handleRegisterEscrow (fun _ => true) "mainnet"
      ⟨some "t", some "c", some "addr", some 1, some "mainnet", some 2, some 100000,
        some 3000, some (TradeContract.sign ⟨"t", "c", 100000, 3000⟩ ⟨7⟩), some 0⟩
      (SchnorrPrivkey.public_key ⟨7⟩) "rk" "tid" 50 ⟨[], [], []⟩).1 = ⟨[], [], []⟩ ∧
    ∃ msg, (handleRegisterEscrow (fun _ => true) "mainnet"
      ⟨some "t", some "c", some "addr", some 1, some "mainnet", some 2, some 100000,
        some 3000, some (TradeContract.sign ⟨"t", "c", 100000, 3000⟩ ⟨7⟩), some 0⟩
      (SchnorrPrivkey.public_key ⟨7⟩) "rk" "tid" 50 ⟨[], [], []⟩).2 = .errorResp msg :=
  ⟨by decide,
   C8_register_escrow_invalid_rejected (fun _ => true) "mainnet" _ _ "rk" "tid" 50
     ⟨[], [], []⟩ (by decide)⟩

/-- C3: for a `register_escrow` request that passes validation (i.e. the
handler reaches invoice creation and answers with a funding invoice), the
funding invoice amount is `trade_amount_sat` when the maker's declared
payment direction is SENDING (enum value 0) and `bond_amount_sat` when it is
RECEIVING (enum value 1). -/
theorem C3_register_escrow_invoice_amount (isAddress : String → Bool) (netName : String)
    (req : RegisterRequest) (senderPubkey : SchnorrPubkey)
    (freshReqKey freshTradeId : String) (now : Nat) (st st' : AgentState)
    (tid : String) (amt : Nat)
    (h : handleRegisterEscrow isAddress netName req senderPubkey freshReqKey freshTradeId
        now st = (st', .accepted tid amt)) :
    (req.payment_direction = some 0 → amt = req.trade_amount_sat.getD 0) ∧
    (req.payment_direction = some 1 → amt = req.bond_amount_sat.getD 0) := by
  unfold handleRegisterEscrow at h
  cases htry : registerEscrowTryBlock isAddress netName req senderPubkey freshReqKey
      freshTradeId now st with
  | error e => rw [htry] at h; exact absurd h (by simp)
  | ok r =>
    rw [htry] at h
    have hamt : r.invoiceAmountSat = amt := by
      have := congrArg Prod.snd h
      simp at this
      exact this.2
    unfold registerEscrowTryBlock at htry
    simp only [] at htry
    repeat' split at htry
    all_goals first
      | exact Except.noConfusion htry
      | (injection htry with htry; subst htry;
         constructor <;> intro hdir <;>
           ((try simp_all [TradePaymentDirection.fromInt]) <;>
            subst_vars <;> simp_all +decide [TradePaymentDirection.fromInt]))

/-- Witness for C3 at concrete valid SENDING and RECEIVING requests. -/
def c3Req (dir : Int) : RegisterRequest :=
  ⟨some "t", some "c", some "addr", some 1, some "mainnet", some 1, some 100000,
    some 3000, some (TradeContract.sign ⟨"t", "c", 100000, 3000⟩ ⟨7⟩), some dir⟩

def c3Maker : TradeParticipant :=
  ⟨SchnorrPrivkey.public_key ⟨7⟩, "rk", "addr", TradeContract.sign ⟨"t", "c", 100000, 3000⟩ ⟨7⟩⟩

def c3TradeOf : AgentEscrowTrade :=
  ⟨.WAITING_FOR_TAKER, ⟨c3Maker, none⟩, ⟨"t", "c", 100000, 3000⟩, .BITCOIN_LIGHTNING, 1, 50⟩

theorem C3_register_escrow_invoice_amount_witness :
    (handleRegisterEscrow (fun _ => true) "mainnet" (c3Req 0)
        (SchnorrPrivkey.public_key ⟨7⟩) "rk" "tid" 50 ⟨[], [], []⟩
      = (⟨[("tid", c3TradeOf)], [], [("rk", 100000)]⟩, .accepted "tid" 100000)) ∧
    ((c3Req 0).payment_direction = some 0 → (100000 : Nat) = (c3Req 0).trade_amount_sat.getD 0) ∧
    ((c3Req 0).payment_direction = some 1 → (100000 : Nat) = (c3Req 0).bond_amount_sat.getD 0) :=
  ⟨by decide,
   C3_register_escrow_invoice_amount (fun _ => true) "mainnet" (c3Req 0)
     (SchnorrPrivkey.public_key ⟨7⟩) "rk" "tid" 50 ⟨[], [], []⟩
     ⟨[("tid", c3TradeOf)], [], [("rk", 100000)]⟩ "tid" 100000 (by decide)⟩

/-! ## Funding notifications  (agent.py, lines 106-134) -/

/-- Modelled from the spec: the `PR_PAID` payment-request status constant from
`electrum.invoices` (not under `src/`); only its distinctness from other
status codes matters here. -/
def PR_PAID : Nat := 3

/-- Python dict lookup `d[k]` on an association list (first binding wins). -/
def lookupTrade (trades : List (String × AgentEscrowTrade)) (trade_id : String) :
    Option AgentEscrowTrade :=
  (trades.find? (fun p => p.1 == trade_id)).map (·.2)

/-- In-place update `trade.state = s` for the trade stored under `trade_id`. -/
def setTradeState (trades : List (String × AgentEscrowTrade)) (trade_id : String)
    (s : TradeState) : List (String × AgentEscrowTrade) :=
  trades.map (fun p => if p.1 == trade_id then (p.1, { p.2 with state := s }) else p)

/-- `EscrowAgent._handle_maker_funding` (agent.py, lines 122-126): `assert
trade_id not in self._trades` then move the pending trade into the persisted
dict.  A failed assertion or a missing pending key (`KeyError` from `.pop`)
is an `.error`. -/
def handleMakerFunding (st : AgentState) (trade_id : String) : Except String AgentState :=
  if (st.trades.find? (fun p => p.1 == trade_id)).isSome then
    .error "AssertionError: trade_id already persisted"
  else
    match lookupTrade st.pending trade_id with
    | none => .error "KeyError"
    | some trade =>
      .ok { st with
        pending := st.pending.eraseP (fun p => p.1 == trade_id)
        trades := st.trades ++ [(trade_id, trade)] }

/-- `EscrowAgent._handle_taker_funding` (agent.py, lines 128-134): `assert
trade.state < TradeState.ONGOING` (IntEnum comparison) then set the state to
ONGOING.  The `_notify_maker_trade_funded` side effect is out of the state
model.  A failed assertion or a missing key (`KeyError`) is an `.error`. -/
def handleTakerFunding (trades : List (String × AgentEscrowTrade)) (trade_id : String) :
    Except String (List (String × AgentEscrowTrade)) :=
  match lookupTrade trades trade_id with
  | none => .error "KeyError"
  | some trade =>
    if trade.state.val < TradeState.ONGOING.val then
      .ok (setTradeState trades trade_id .ONGOING)
    else
      .error "AssertionError: trade.state"

/-- C7: `_handle_taker_funding` on a persisted trade not in WAITING_FOR_TAKER
fails with an assertion error and leaves the trade dict unmodified (no new
dict is produced); on a trade in WAITING_FOR_TAKER it sets the state to
ONGOING. -/
theorem C7_taker_funding_assertion (trades : List (String × AgentEscrowTrade))
    (trade_id : String) (trade : AgentEscrowTrade)
    (hfound : lookupTrade trades trade_id = some trade) :
    (trade.state ≠ TradeState.WAITING_FOR_TAKER →
      handleTakerFunding trades trade_id = .error "AssertionError: trade.state") ∧
    (trade.state = TradeState.WAITING_FOR_TAKER →
      handleTakerFunding trades trade_id = .ok (setTradeState trades trade_id .ONGOING)) := by
  constructor
  · intro hne
    have : ¬ trade.state.val < TradeState.ONGOING.val := by
      cases h : trade.state <;> simp [TradeState.val] <;> simp [h] at hne ⊢
    simp [handleTakerFunding, hfound, this]
  · intro heq
    have : trade.state.val < TradeState.ONGOING.val := by
      rw [heq]; simp [TradeState.val]
    simp [handleTakerFunding, hfound, this]

def c7Trade (s : TradeState) : AgentEscrowTrade :=
  ⟨s, ⟨c3Maker, none⟩, ⟨"t", "c", 100000, 3000⟩, .BITCOIN_LIGHTNING, 1, 50⟩

/-- Witness for C7: an ONGOING trade is rejected, a WAITING_FOR_TAKER trade
moves to ONGOING. -/
theorem C7_taker_funding_assertion_witness :
    (lookupTrade [("a", c7Trade .ONGOING)] "a" = some (c7Trade .ONGOING) ∧
      handleTakerFunding [("a", c7Trade .ONGOING)] "a"
        = .error "AssertionError: trade.state") ∧
    (lookupTrade [("b", c7Trade .WAITING_FOR_TAKER)] "b"
        = some (c7Trade .WAITING_FOR_TAKER) ∧
      handleTakerFunding [("b", c7Trade .WAITING_FOR_TAKER)] "b"
        = .ok (setTradeState [("b", c7Trade .WAITING_FOR_TAKER)] "b" .ONGOING)) :=
  ⟨⟨by decide,
    (C7_taker_funding_assertion [("a", c7Trade .ONGOING)] "a" (c7Trade .ONGOING)
      (by decide)).1 (by decide)⟩,
   ⟨by decide,
    (C7_taker_funding_assertion [("b", c7Trade .WAITING_FOR_TAKER)] "b"
      (c7Trade .WAITING_FOR_TAKER) (by decide)).2 rfl⟩⟩

/-- The scan `for trade_id, trade in self._trades.items(): if
trade.trade_participants.taker.funding_request_key == key` from
`on_event_request_status`: evaluating `taker.funding_request_key` with
`taker = None` raises `AttributeError` at the first such trade. -/
def findTakerMatch (trades : List (String × AgentEscrowTrade)) (key : String) :
    Except String (Option String) :=
  match trades with
  | [] => .ok none
  | (trade_id, trade) :: rest =>
    match trade.trade_participants.taker with
    | none => .error "AttributeError"
    | some taker =>
      if taker.funding_request_key == key then .ok (some trade_id)
      else findTakerMatch rest key

/-- The scan over the pending dict in `on_event_request_status`: the first
pending trade whose maker funding-request key matches. -/
def findMakerMatch (pending : List (String × AgentEscrowTrade)) (key : String) :
    Option String :=
  (pending.find? (fun p => p.2.trade_participants.maker.funding_request_key == key)).map (·.1)

/-- `EscrowAgent.on_event_request_status` (agent.py, lines 106-120): ignore
non-PAID statuses, move a matching pending trade to persisted, else scan the
persisted dict for a matching taker funding key; an uncaught Python
exception is an `.error`. -/
def onEventRequestStatus (st : AgentState) (key : String) (status : Nat) :
    Except String AgentState :=
  if status ≠ PR_PAID then .ok st
  else
    match findMakerMatch st.pending key with
    | some trade_id => handleMakerFunding st trade_id
    | none =>
      match findTakerMatch st.trades key with
      | .error e => .error e
      | .ok (some trade_id) =>
        (handleTakerFunding st.trades trade_id).map (fun ts => { st with trades := ts })
      | .ok none => .ok st

/-- The agent state right after `_handle_maker_funding` persisted one trade:
it is WAITING_FOR_TAKER and its taker participant is `None`. -/
def c10State : AgentState :=
  ⟨[], [("t1", c7Trade .WAITING_FOR_TAKER)], [("otherkey", 500)]⟩

/-- C10 (refuted; the claim says the handler never raises): a PAID
notification for a key matching no trade raises `AttributeError` in the
persisted-trade scan because the trade's taker participant is `None`
(`c3Maker.funding_request_key = "rk" ≠ "otherkey"`). -/
theorem C10_request_status_attribute_error :
    onEventRequestStatus c10State "otherkey" PR_PAID = .error "AttributeError" ∧
    (c7Trade .WAITING_FOR_TAKER).trade_participants.taker = none := by
  constructor
  · rfl
  · rfl

/-! ## Client agent-discovery  (client.py, lines 34-49 and 110-217) -/

/-- `EscrowAgentProfile` from `escrow_worker.py`. -/
structure EscrowAgentProfile where
  name : String
  about : String
  languages : List String
  service_fee_ppm : Nat
  gpg_fingerprint : Option String := none
  picture : Option String := none
  website : Option String := none
deriving DecidableEq, Repr

/-- `EscrowAgentInfo` from `client.py`: the per-agent cache entry with
per-field last-update timestamps. -/
structure EscrowAgentInfo where
  profile_info : Option EscrowAgentProfile := none
  inbound_liquidity : Option Int := none
  outbound_liquidity : Option Int := none
  relays : Option (List String) := none
  profile_ts : Option Nat := none
  status_ts : Option Nat := none
  relay_ts : Option Nat := none
deriving DecidableEq, Repr

/-- The decrypted/parsed JSON content of a nostr event, as far as the three
client handlers inspect it: `invalid` models a JSON-decode failure, a
non-dict, or a dict of the wrong shape for the handler in question. -/
inductive EventContent
  | invalid
  | profile (p : EscrowAgentProfile)
  | status (inbound outbound : Int)
deriving DecidableEq, Repr

/-- A nostr event as seen by `_fetch_agent_events`. -/
structure NostrEvent where
  pubkey : String
  kind : Nat
  created_at : Nat
  tags : List (List String)
  content : EventContent
deriving DecidableEq, Repr

/-- The client's `agent_infos` defaultdict as an association list. -/
abbrev AgentInfos := List (String × EscrowAgentInfo)

/-- `self.agent_infos.get(pk)`: plain lookup, does not insert. -/
def getInfo (infos : AgentInfos) (pk : String) : Option EscrowAgentInfo :=
  (infos.find? (fun p => p.1 == pk)).map (·.2)

/-- `self.agent_infos[pk].field = v`: defaultdict access inserts a default
entry when the key is absent, then the field update mutates it in place. -/
def updateInfo (infos : AgentInfos) (pk : String)
    (f : EscrowAgentInfo → EscrowAgentInfo) : AgentInfos :=
  if (getInfo infos pk).isSome then
    infos.map (fun p => if p.1 == pk then (p.1, f p.2) else p)
  else
    infos ++ [(pk, f {})]

/-- `EscrowClient._handle_escrow_agent_profile` (client.py, lines 161-182). -/
def handleEscrowAgentProfile (infos : AgentInfos) (e : NostrEvent) : AgentInfos :=
  match e.content with
  | .profile p =>
    let gate : Bool :=
      match getInfo infos e.pubkey with
      | some info => decide (e.created_at ≤ info.profile_ts.getD 0)
      | none => false
    if gate then infos
    else updateInfo infos e.pubkey
      (fun i => { i with profile_info := some p, profile_ts := some e.created_at })
  | _ => infos

/-- `EscrowClient._handle_escrow_agent_status` (client.py, lines 184-208). -/
def handleEscrowAgentStatus (infos : AgentInfos) (e : NostrEvent) : AgentInfos :=
  match e.content with
  | .status inbound outbound =>
    let gate : Bool :=
      match getInfo infos e.pubkey with
      | some info => decide (e.created_at ≤ info.status_ts.getD 0)
      | none => false
    if gate then infos
    else updateInfo infos e.pubkey
      (fun i => { i with inbound_liquidity := some inbound,
                         outbound_liquidity := some outbound,
                         status_ts := some e.created_at })
  | _ => infos

/-- The relay-url extraction of `_handle_escrow_agent_relay_list`:
tags `['r', url]` with a valid websocket url, truncated to 10. -/
def relayTagsOf (isWsUrl : String → Bool) (tags : List (List String)) : List String :=
  (tags.filterMap (fun t =>
    match t with
    | tagname :: url :: _ => if tagname == "r" && isWsUrl url then some url else none
    | _ => none)).take 10

/-- `EscrowClient._handle_escrow_agent_relay_list` (client.py, lines 210-217).
The guard reads `relay_ts`, but no code path ever writes `relay_ts` — the
update only assigns `relays` (faithful to the source). -/
def handleEscrowAgentRelayList (isWsUrl : String → Bool) (infos : AgentInfos)
    (e : NostrEvent) : AgentInfos :=
  let infos1 :=
    if (getInfo infos e.pubkey).isSome then infos
    else infos ++ [(e.pubkey, ({} : EscrowAgentInfo))]
  if e.created_at ≤ (((getInfo infos1 e.pubkey).getD ({} : EscrowAgentInfo)).relay_ts.getD 0) then infos1
  else updateInfo infos1 e.pubkey
    (fun i => { i with relays := some (relayTagsOf isWsUrl e.tags) })

/-- The per-event body of `EscrowClient._fetch_agent_events` (client.py,
lines 136-154): drop events from unknown identities, then dispatch on the
event kind.  The `for tag in event.tags:` network check between those two
steps only logs: its `continue` continues the inner tag loop, so it never
skips the event — `netName` is therefore unused beyond that logging
(faithful to the source). -/
def processAgentEvent (isWsUrl : String → Bool) (netName : String)
    (agentPubkeys : List String) (infos : AgentInfos) (e : NostrEvent) : AgentInfos :=
  if (getInfo infos e.pubkey).isNone && !agentPubkeys.contains e.pubkey then infos
  else
    let _ := netName
    if e.kind = AGENT_PROFILE_EVENT_KIND then handleEscrowAgentProfile infos e
    else if e.kind = AGENT_STATUS_EVENT_KIND then handleEscrowAgentStatus infos e
    else if e.kind = AGENT_RELAY_LIST_METADATA_KIND then
      handleEscrowAgentRelayList isWsUrl infos e
    else infos

def c4Profile : EscrowAgentProfile :=
  { name := "agent", about := "", languages := ["en"], service_fee_ppm := 5000 }

/-- A profile event carrying a wrong-network tag (`net:signet` while the
local network is "mainnet"). -/
def c4Event : NostrEvent :=
  { pubkey := "alice", kind := AGENT_PROFILE_EVENT_KIND, created_at := 10,
    tags := [["r", "net:signet"]], content := .profile c4Profile }

/-- C4 (refuted; the claim says wrong-network events leave the cache
unchanged): an event from a configured identity whose only `['r', ...]` tag
names a different network is still processed, and the client's `agent_infos`
cache changes. -/
theorem C4_wrong_network_event_mutates_cache :
    (c4Event.tags = [["r", "net:signet"]] ∧ "net:signet" ≠ "net:" ++ "mainnet") ∧
    processAgentEvent (fun _ => false) "mainnet" ["alice"] [] c4Event
      = [("alice", { profile_info := some c4Profile, profile_ts := some 10 })] ∧
    processAgentEvent (fun _ => false) "mainnet" ["alice"] [] c4Event ≠ [] := by
  refine ⟨⟨rfl, by decide⟩, rfl, by decide⟩

/-- A relay-list event with timestamp 100 listing relay `wss://a`. -/
def c5EventNew : NostrEvent :=
  { pubkey := "alice", kind := AGENT_RELAY_LIST_METADATA_KIND, created_at := 100,
    tags := [["r", "wss://a"]], content := .invalid }

/-- A second relay-list event, strictly older (timestamp 50), listing
`wss://b`. -/
def c5EventOld : NostrEvent :=
  { pubkey := "alice", kind := AGENT_RELAY_LIST_METADATA_KIND, created_at := 50,
    tags := [["r", "wss://b"]], content := .invalid }

/-- C5 (refuted; the claim says an event older than the last-seen timestamp
for a field leaves the cached value unchanged): because
`_handle_escrow_agent_relay_list` never writes `relay_ts`, a relay-list
event older than the previously applied one still replaces the cached relay
list. -/
theorem C5_older_relay_event_overwrites :
    c5EventOld.created_at < c5EventNew.created_at ∧
    (handleEscrowAgentRelayList (fun _ => true) [] c5EventNew)
      = [("alice", { relays := some ["wss://a"] })] ∧
    (handleEscrowAgentRelayList (fun _ => true)
        (handleEscrowAgentRelayList (fun _ => true) [] c5EventNew) c5EventOld)
      = [("alice", { relays := some ["wss://b"] })] := by
  refine ⟨by decide, rfl, rfl⟩

/-! ## Nostr worker job scheduling  (nostr_worker.py, lines 39-157 and 211-222)

The observable scheduling state of `EscrowNostrWorker`: the pending job
deque, the set of running tasks (named by job id), and, for each
`fetch_events` subscription job, whether its output queue has received the
end-of-stream sentinel `None` (the `finally:` clause of the job coroutine).
Fresh random job ids from `secrets.token_hex(8)` are modelled by recording
every id ever issued in `usedIds` and requiring submitted ids to be new. -/

structure NostrWorkerState where
  pendingJobs : List String
  runningTasks : List String
  sentinels : List String
  usedIds : List String
deriving DecidableEq, Repr

/-- One scheduling step of the nostr worker:
* `submitJob`: `fetch_events`/`_add_job` appends a fresh job id to the deque;
* `startJob`: the main loop pops the deque head and starts it as a task;
* `jobEnds`: a running job finishes or its task is cancelled
  (`cancel_job` second branch); either way the job's `finally:` runs and
  puts the sentinel `None` on its output queue;
* `cancelPendingJob`: `cancel_job` first branch removes a still-pending job
  from the deque — nothing is put on any queue. -/
inductive WorkerStep : NostrWorkerState → NostrWorkerState → Prop
  | submitJob (s : NostrWorkerState) (jid : String) (h : jid ∉ s.usedIds) :
      WorkerStep s { s with pendingJobs := s.pendingJobs ++ [jid],
                            usedIds := s.usedIds ++ [jid] }
  | startJob (s : NostrWorkerState) (jid : String) (rest : List String)
      (h : s.pendingJobs = jid :: rest) :
      WorkerStep s { s with pendingJobs := rest,
                            runningTasks := s.runningTasks ++ [jid] }
  | jobEnds (s : NostrWorkerState) (jid : String) (h : jid ∈ s.runningTasks) :
      WorkerStep s { s with runningTasks := s.runningTasks.eraseP (· == jid),
                            sentinels := s.sentinels ++ [jid] }
  | cancelPendingJob (s : NostrWorkerState) (jid : String) (h : jid ∈ s.pendingJobs) :
      WorkerStep s { s with pendingJobs := s.pendingJobs.eraseP (· == jid) }

/-- A job id that was issued but is in none of the pending deque, the running
set, or the sentinel log, is gone for good: no later state ever records its
sentinel. -/
theorem cancelled_pending_job_gone (jid : String) (s s' : NostrWorkerState)
    (hreach : Relation.ReflTransGen WorkerStep s s')
    (hused : jid ∈ s.usedIds) (hp : jid ∉ s.pendingJobs)
    (hr : jid ∉ s.runningTasks) (hs : jid ∉ s.sentinels) :
    jid ∉ s'.sentinels := by
  have hinv : ∀ t t', WorkerStep t t' →
      (jid ∈ t.usedIds ∧ jid ∉ t.pendingJobs ∧ jid ∉ t.runningTasks ∧ jid ∉ t.sentinels) →
      (jid ∈ t'.usedIds ∧ jid ∉ t'.pendingJobs ∧ jid ∉ t'.runningTasks ∧ jid ∉ t'.sentinels) := by
    intro t t' hstep ⟨hu, hpp, hrr, hss⟩
    cases hstep with
    | submitJob j hfresh =>
      have hne : j ≠ jid := fun h => hfresh (h ▸ hu)
      refine ⟨by simp [hu], ?_, hrr, hss⟩
      simp only [List.mem_append, List.mem_singleton]
      rintro (h | h)
      · exact hpp h
      · exact hne h.symm
    | startJob j rest hhead =>
      have hne : j ≠ jid := by
        intro h
        exact hpp (by rw [hhead, h]; exact List.mem_cons_self _ _)
      refine ⟨hu, ?_, ?_, hss⟩
      · intro h
        exact hpp (by rw [hhead]; exact List.mem_cons_of_mem _ h)
      · simp only [List.mem_append, List.mem_singleton]
        rintro (h | h)
        · exact hrr h
        · exact hne h.symm
    | jobEnds j hrun =>
      have hne : j ≠ jid := fun h => hrr (h ▸ hrun)
      refine ⟨hu, hpp, ?_, ?_⟩
      · intro h
        exact hrr (List.mem_of_mem_eraseP h)
      · simp only [List.mem_append, List.mem_singleton]
        rintro (h | h)
        · exact hss h
        · exact hne h.symm
    | cancelPendingJob j hpend =>
      refine ⟨hu, ?_, hrr, hss⟩
      intro h
      exact hpp (List.mem_of_mem_eraseP h)
  have : jid ∈ s'.usedIds ∧ jid ∉ s'.pendingJobs ∧ jid ∉ s'.runningTasks ∧
      jid ∉ s'.sentinels := by
    induction hreach with
    | refl => exact ⟨hused, hp, hr, hs⟩
    | tail hab hbc ih => exact hinv _ _ hbc ih
  exact this.2.2.2

/-- C6 (refuted; the claim says a cancelled subscription's queue always
eventually receives the sentinel `None`): a `fetch_events` job that is
cancelled while still pending in the deque is removed without the sentinel
ever being delivered, in this state and every reachable future state. -/
theorem C6_cancel_pending_job_no_sentinel :
    WorkerStep ⟨[], [], [], []⟩ ⟨["j1"], [], [], ["j1"]⟩ ∧
    WorkerStep ⟨["j1"], [], [], ["j1"]⟩ ⟨[], [], [], ["j1"]⟩ ∧
    ∀ s' : NostrWorkerState,
      Relation.ReflTransGen WorkerStep ⟨[], [], [], ["j1"]⟩ s' →
        "j1" ∉ s'.sentinels := by
  refine ⟨?_, ?_, ?_⟩
  · have h := WorkerStep.submitJob ⟨[], [], [], []⟩ "j1" (by simp)
    simpa using h
  · have h := WorkerStep.cancelPendingJob ⟨["j1"], [], [], ["j1"]⟩ "j1" (by simp)
    simpa [List.eraseP] using h
  · intro s' hreach
    exact cancelled_pending_job_gone "j1" _ s' hreach (by simp) (by simp) (by simp) (by simp)

/-- Witness for C6's reachability hypothesis at the trivial reachable state. -/
theorem C6_cancel_pending_job_no_sentinel_witness :
    "j1" ∉ (⟨[], [], [], ["j1"]⟩ : NostrWorkerState).sentinels :=
  C6_cancel_pending_job_no_sentinel.2.2 ⟨[], [], [], ["j1"]⟩ Relation.ReflTransGen.refl

/-! ## Client trade keys  (nostr_worker.py, lines 167-177; client.py, lines 239-259) -/

/-- `EscrowNostrWorker.get_nostr_privkey_for_wallet`: the private key is
`sha256('nostr_escrow:' + xpub + str(key_id))`; the stable wallet identity
uses the default `key_id = -1`. -/
def getNostrPrivkeyForWallet (xpub : String) (keyId : Int) : Digest :=
  sha256 ("nostr_escrow:" ++ xpub ++ intStr keyId)

/-- `ClientEscrowTrade` from `client.py`. -/
structure ClientEscrowTrade where
  state : TradeState
  contract : TradeContract
  payment_direction : TradePaymentDirection
  payment_protocol : TradePaymentProtocol
  onchain_fallback_address : String
  escrow_agent_pubkey : String
  trade_protocol_version : Nat
  creation_timestamp : Nat
  funding_invoice_key : Option String := none
  postbox_key : Option String := none
  tradePrivateKey : Option Digest := none
deriving DecidableEq, Repr

/-- The client's persisted trade dict (`storage['escrow_client_trades']`). -/
structure ClientState where
  trades : List (String × ClientEscrowTrade)
deriving DecidableEq, Repr

/-- `EscrowClient.get_new_privkey_for_trade` (client.py, lines 239-249):
derives the key for the next trade with `key_id = len(self._trades)`. -/
def getNewPrivkeyForTrade (xpub : String) (st : ClientState) : Digest :=
  getNostrPrivkeyForWallet xpub (Int.ofNat st.trades.length)

/-- The key-derivation step of `EscrowClient.request_register_escrow`
(client.py, lines 260-320): the freshly derived key is stored on the
returned trade (`dataclasses.replace(trade, ..., private_key=privkey.hex())`). -/
def registerTradeKey (xpub : String) (st : ClientState)
    (draft : ClientEscrowTrade) : ClientEscrowTrade :=
  { draft with tradePrivateKey := some (getNewPrivkeyForTrade xpub st) }

/-- `EscrowClient.save_new_trade` (client.py, lines 251-258), state change
only (its assertions that the id is fresh and the funding invoice paid are
side conditions that hold in the scenarios considered here). -/
def saveNewTrade (st : ClientState) (trade_id : String)
    (trade : ClientEscrowTrade) : ClientState :=
  { st with trades := st.trades ++ [(trade_id, trade)] }

def c9Draft (t : String) : ClientEscrowTrade :=
  { state := .WAITING_FOR_TAKER
    contract := ⟨t, "terms", 100000, 3000⟩
    payment_direction := .SENDING
    payment_protocol := .BITCOIN_LIGHTNING
    onchain_fallback_address := "addr"
    escrow_agent_pubkey := "agent"
    trade_protocol_version := 1
    creation_timestamp := 60 }

def c9TradeA : ClientEscrowTrade := registerTradeKey "xpub" ⟨[]⟩ (c9Draft "A")

def c9TradeB : ClientEscrowTrade := registerTradeKey "xpub" ⟨[]⟩ (c9Draft "B")

/-- C9 counterexample: two distinct trades registered back-to-back (the
second key derived before the first trade is saved, as `key_id =
len(self._trades)` does not change until `save_new_trade`) end up persisted
with the identical trade-scoped signing key. -/
theorem C9_counterexample_same_key :
    c9TradeA ≠ c9TradeB ∧
    ("a", c9TradeA) ∈ (saveNewTrade (saveNewTrade ⟨[]⟩ "a" c9TradeA) "b" c9TradeB).trades ∧
    ("b", c9TradeB) ∈ (saveNewTrade (saveNewTrade ⟨[]⟩ "a" c9TradeA) "b" c9TradeB).trades ∧
    c9TradeA.tradePrivateKey = c9TradeB.tradePrivateKey := by
  refine ⟨by decide, by simp [saveNewTrade], by simp [saveNewTrade], rfl⟩

/-- C9 (amended): trade keys derived at states with different trade counts
are distinct, and every trade key differs from the wallet's stable identity
key (`key_id = -1`); distinctness across trades therefore holds whenever
each registration's trade is saved before the next key is derived. -/
theorem C9_trade_keys_distinct (xpub : String) (st1 st2 : ClientState)
    (hlen : st1.trades.length ≠ st2.trades.length) :
    getNewPrivkeyForTrade xpub st1 ≠ getNewPrivkeyForTrade xpub st2 ∧
    getNewPrivkeyForTrade xpub st1 ≠ getNostrPrivkeyForWallet xpub (-1) := by
  constructor
  · intro h
    have hdata : ("nostr_escrow:" ++ xpub ++ natStr st1.trades.length).data
        = ("nostr_escrow:" ++ xpub ++ natStr st2.trades.length).data := by
      have := congrArg Digest.preimage h
      simp only [getNewPrivkeyForTrade, getNostrPrivkeyForWallet, sha256, intStr] at this
      exact congrArg String.data this
    simp only [string_append_data, List.append_assoc] at hdata
    have h1 := List.append_cancel_left hdata
    have h2 := List.append_cancel_left h1
    exact hlen (natStr_injective (string_data_inj h2))
  · intro h
    have hdata : ("nostr_escrow:" ++ xpub ++ natStr st1.trades.length).data
        = ("nostr_escrow:" ++ xpub ++ "-1").data := by
      have := congrArg Digest.preimage h
      simp only [getNewPrivkeyForTrade, getNostrPrivkeyForWallet, sha256, intStr] at this
      have hneg : intStr (-1) = "-1" := by decide
      rw [show ((-1 : Int) = Int.negSucc 0) from rfl] at this
      simp only [intStr] at this
      exact congrArg String.data (by simpa using this)
    simp only [string_append_data, List.append_assoc] at hdata
    have h1 := List.append_cancel_left hdata
    have h2 := List.append_cancel_left h1
    exact natStr_ne_neg_one st1.trades.length (string_data_inj h2)

/-- Witness for the amended C9 at concrete states with 0 and 1 saved trades. -/
theorem C9_trade_keys_distinct_witness :
    ((⟨[]⟩ : ClientState).trades.length ≠
      (⟨[("a", c9TradeA)]⟩ : ClientState).trades.length) ∧
    (getNewPrivkeyForTrade "xpub" ⟨[]⟩ ≠ getNewPrivkeyForTrade "xpub" ⟨[("a", c9TradeA)]⟩ ∧
      getNewPrivkeyForTrade "xpub" ⟨[]⟩ ≠ getNostrPrivkeyForWallet "xpub" (-1)) :=
  ⟨by decide, C9_trade_keys_distinct "xpub" ⟨[]⟩ ⟨[("a", c9TradeA)]⟩ (by decide)⟩

end Escrow
